import Mathlib

/-!
Verification development for the PrepLyt repository.

The repository is a React/Supabase web application for live group-discussion
practice rooms.  This file gives a shallow embedding of the core logic the
specification describes — the room participant roster admission
(read-check-write against a JSON array column), the feedback/points
publisher, the room status lifecycle, and the realtime view binder — and
proves or refutes the specification's claims about that logic.

Sources embedded here:
* `src/src/pages/MeetingRoom.tsx` — `handleOpenMeetingLink`,
  `handleSubmitRating`, `fetchRoom` status bump, the realtime UPDATE
  handler, and `handleEndSession` (Dashboard component in the same file).
* `src/unnamed/part_003` — `handleJoinRoom` / `handleJoinDomain`
  (Dashboard variant) sharing the same admission kernel.

Store reads/writes are modelled by explicit state passing; a Supabase call
that can fail is modelled by an outcome parameter (`ok` — the call succeeds;
`errorResult` — the call resolves with an error object that the code
destructures away or ignores; `thrown` — the call raises, landing in the
surrounding `catch`).
-/

namespace PrepLyt

/-- A participant entry embedded in a room's `participants` JSON column:
`{ id, name, role }` (denormalized snapshot of a profile). -/
structure Participant where
  id : String
  name : String
  role : String
deriving DecidableEq, Repr

/-- A profile row: `{ id, name, role, points }`. -/
structure Profile where
  id : String
  name : String
  role : String
  points : Int
deriving DecidableEq, Repr

/-- The participant entry built from a profile at join time:
`{ id: activeProfile.id, name: activeProfile.name, role: activeProfile.role }`
(`MeetingRoom.tsx` lines 205–209, `part_003` lines 131–133). -/
def profileToParticipant (p : Profile) : Participant :=
  { id := p.id, name := p.name, role := p.role }

/-- The identifiers occurring in a participant list. -/
def ids (ps : List Participant) : List String :=
  ps.map Participant.id

/-- The admission kernel shared by `handleOpenMeetingLink`
(`MeetingRoom.tsx` 204–218), `handleJoinRoom` (`part_003` 187–199) and
`handleJoinDomain` (`part_003` 127–139): scan the list read from the store
for an entry with the candidate's id; if absent, the full list with the
candidate appended is written back; if present, the list is left as is. -/
def admitStep (current : List Participant) (cand : Participant) : List Participant :=
  if current.any (fun p => p.id == cand.id) then current
  else current ++ [cand]

/-- Observable behaviour of one roster admission call against the store:
the list the call read, the full-list update payloads it issued, and the
store contents afterwards. -/
structure JoinTrace where
  readList : List Participant
  writes : List (List Participant)
  finalStore : List Participant
deriving DecidableEq, Repr

/-- `handleJoinRoom` (`src/unnamed/part_003` lines 180–199), room found:
read the room fresh from the store, take its `participants` column, and if
`participants.find(p => p.id === profile.id)` is empty, issue one update
writing `[...participants, {id, name, role}]`; otherwise issue no write. -/
def handleJoinRoom (store : List Participant) (profile : Profile) : JoinTrace :=
  let participants := store
  if (participants.find? (fun p => p.id == profile.id)).isSome then
    { readList := participants, writes := [], finalStore := store }
  else
    let updatedParticipants := participants ++ [profileToParticipant profile]
    { readList := participants
      writes := [updatedParticipants]
      finalStore := updatedParticipants }

/-- A sequence of admissions executed one at a time, each read seeing the
previous write (`handleJoinDomain` / `handleJoinRoom` run sequentially). -/
def joinSeq (start : List Participant) (cands : List Participant) : List Participant :=
  cands.foldl admitStep start

/-- Two concurrent admissions that both read the same initial list `L`
(`MeetingRoom.tsx` 194–218): each client computes its appended list from
`L` and issues a full-list overwrite when its candidate is absent from `L`;
`a`'s write lands first, `b`'s write lands last. -/
def concurrentJoinFinal (l : List Participant) (a b : Participant) :
    List Participant :=
  let afterA := if l.any (fun p => p.id == a.id) then l else l ++ [a]
  if l.any (fun p => p.id == b.id) then afterA else l ++ [b]

/-- The room status values the application code reads and writes:
`"waiting"`, `"live"` (written by `fetchRoom`, `MeetingRoom.tsx` 129–134)
and `"completed"` (written by `handleEndSession`, `MeetingRoom.tsx` 758;
tested by the realtime handler at line 166). -/
inductive Status where
  | waiting
  | live
  | completed
deriving DecidableEq, Repr

/-- A room row as the application reads it (`MeetingRoom.tsx` 42–51). -/
structure Room where
  id : String
  topic : String
  domain : String
  status : Status
  meeting_link : Option String
  participants : List Participant
  host_id : String
  created_at : String
deriving DecidableEq, Repr

/-- The status write in `fetchRoom` (`MeetingRoom.tsx` 129–134): after a
successful room-view load, `if (data.status === "waiting")` the store is
updated with `{ status: "live" }`; otherwise no status write occurs. -/
def viewLoad : Status → Status
  | Status.waiting => Status.live
  | s => s

/-- `handleEndSession` (`MeetingRoom.tsx` 755–764): unconditionally updates
the room with `{ status: 'completed' }`. -/
def endSession (_ : Status) : Status := Status.completed

/-- The two operations of the repository that write a room's status after
creation. -/
inductive RoomOp where
  | load
  | close
deriving DecidableEq, Repr

/-- Apply one status-writing operation. -/
def applyOp (s : Status) : RoomOp → Status
  | RoomOp.load => viewLoad s
  | RoomOp.close => endSession s

/-- Position of a status along the lifecycle `waiting → live → completed`. -/
def statusRank : Status → Nat
  | Status.waiting => 0
  | Status.live => 1
  | Status.completed => 2

/-- The room statuses observed along a run: the start status followed by
the status after each successive operation. -/
def statusTrace (s : Status) : List RoomOp → List Status
  | [] => [s]
  | op :: ops => s :: statusTrace (applyOp s op) ops

/-- Number of adjacent `waiting → live` transitions in a status sequence. -/
def waitingToLiveCount : List Status → Nat
  | a :: b :: rest =>
      (if a = Status.waiting ∧ b = Status.live then 1 else 0)
        + waitingToLiveCount (b :: rest)
  | _ => 0

/-- Outcome of one Supabase call: it succeeds, it resolves with an error
object (which this code destructures away or ignores), or it raises and is
caught by the surrounding `catch`. -/
inductive StoreOutcome where
  | ok
  | errorResult
  | thrown
deriving DecidableEq, Repr

/-- Observable result of one `handleOpenMeetingLink` call: the room's
participant column afterwards, how many update calls were issued, whether
`window.open` ran, and which toast was raised. -/
structure CheckInResult where
  store : List Participant
  writes : Nat
  opened : Bool
  toastSuccess : Bool
  toastFailure : Bool
deriving DecidableEq, Repr

/-- `handleOpenMeetingLink` (`MeetingRoom.tsx` 182–234).  Early return when
the room has no meeting link or no profile is loaded.  If the local
`participants` state already lists the profile, the link is opened with no
store traffic.  Otherwise the participant list is read fresh; a read that
resolves with an error leaves `currentRoom` null, so `currentParticipants`
falls back to `[]` and the candidate is written as the whole list.  The
update call's error result is ignored: unless a call throws (landing in the
`catch`, which raises the failure toast and opens nothing), the link is
opened and the success toast shown regardless of whether the write landed. -/
def handleOpenMeetingLink (meetingLink : Option String)
    (localParticipants : List Participant) (activeProfile : Option Profile)
    (store : List Participant) (readOutcome writeOutcome : StoreOutcome) :
    CheckInResult :=
  match meetingLink, activeProfile with
  | none, _ => ⟨store, 0, false, false, false⟩
  | some _, none => ⟨store, 0, false, false, false⟩
  | some _, some prof =>
    if localParticipants.any (fun p => p.id == prof.id) then
      ⟨store, 0, true, false, false⟩
    else
      match readOutcome with
      | StoreOutcome.thrown => ⟨store, 0, false, false, true⟩
      | StoreOutcome.errorResult =>
        match writeOutcome with
        | StoreOutcome.thrown => ⟨store, 1, false, false, true⟩
        | StoreOutcome.errorResult => ⟨store, 1, true, true, false⟩
        | StoreOutcome.ok => ⟨[profileToParticipant prof], 1, true, true, false⟩
      | StoreOutcome.ok =>
        let currentParticipants := store
        if currentParticipants.any (fun p => p.id == prof.id) then
          ⟨store, 0, true, true, false⟩
        else
          match writeOutcome with
          | StoreOutcome.thrown => ⟨store, 1, false, false, true⟩
          | StoreOutcome.errorResult => ⟨store, 1, true, true, false⟩
          | StoreOutcome.ok =>
            ⟨currentParticipants ++ [profileToParticipant prof], 1, true, true, false⟩

/-- The room-level view of one admission write (`MeetingRoom.tsx` 204–218,
`part_003` 188–199): the update call names only the `participants` column,
so the stored room row keeps every other field. -/
def joinRoomUpdate (r : Room) (profile : Profile) : Room :=
  let participants := r.participants
  if participants.any (fun p => p.id == profile.id) then r
  else { r with participants := participants ++ [profileToParticipant profile] }

/-- A feedback row as inserted by `handleSubmitRating`
(`MeetingRoom.tsx` 240–246). -/
structure FeedbackRow where
  room_id : String
  student_id : String
  expert_id : String
  rating : Int
  comment : String
deriving DecidableEq, Repr

/-- Point balance of the profile `pid`, read as `handleSubmitRating` reads
`select("points").eq("id", ...)` from an association-list view of the
`profiles` table. -/
def getPoints (profiles : List (String × Int)) (pid : String) : Option Int :=
  (profiles.find? (fun q => q.1 == pid)).map (fun q => q.2)

/-- Write the point balance of profile `pid` (`update({ points: ... })`). -/
def setPoints (profiles : List (String × Int)) (pid : String) (v : Int) :
    List (String × Int) :=
  profiles.map (fun q => if q.1 == pid then (q.1, v) else q)

/-- Observable result of one `handleSubmitRating` call. -/
structure RatingResult where
  feedback : List FeedbackRow
  profiles : List (String × Int)
  toastSuccess : Bool
  toastError : Bool
deriving DecidableEq, Repr

/-- `handleSubmitRating` (`MeetingRoom.tsx` 236–272): insert a feedback row
(the call's error result is discarded, so an insert that resolves with an
error adds nothing and the flow continues); read the rated profile's
points (a read error leaves `studentData` null); `if (studentData)` write
back `points + rating * 10`, else skip the update (the update call's own
error result is also discarded); the success toast fires on every path
that does not throw, and a thrown call lands in the `catch` which raises
the error toast and stops the rest of the body. -/
def handleSubmitRating (fb : List FeedbackRow) (profiles : List (String × Int))
    (roomId studentId expertId : String) (rating : Int) (comment : String)
    (insertOutcome readOutcome updateOutcome : StoreOutcome) : RatingResult :=
  match insertOutcome with
  | StoreOutcome.thrown => ⟨fb, profiles, false, true⟩
  | io =>
    let fb' :=
      if io = StoreOutcome.ok then
        fb ++ [⟨roomId, studentId, expertId, rating, comment⟩]
      else fb
    match readOutcome with
    | StoreOutcome.thrown => ⟨fb', profiles, false, true⟩
    | ro =>
      match (if ro = StoreOutcome.ok then getPoints profiles studentId else none) with
      | some pts =>
        match updateOutcome with
        | StoreOutcome.thrown => ⟨fb', profiles, false, true⟩
        | StoreOutcome.errorResult => ⟨fb', profiles, true, false⟩
        | StoreOutcome.ok =>
          ⟨fb', setPoints profiles studentId (pts + rating * 10), true, false⟩
      | none => ⟨fb', profiles, true, false⟩

/-- Local view state of the room page (`MeetingRoom.tsx` 70–71). -/
structure LocalRoomState where
  room : Option Room
  participants : List Participant
deriving DecidableEq, Repr

/-- Result of the realtime UPDATE handler: the new local state, whether the
viewer was redirected away, and whether the session-ended toast fired. -/
structure RoomUpdateResult where
  state : LocalRoomState
  redirected : Bool
  toastShown : Bool
deriving DecidableEq, Repr

/-- The realtime UPDATE handler (`MeetingRoom.tsx` 159–173): on each room
update event, `setRoom(payload.new)` and
`setParticipants(payload.new.participants || [])` replace the local state
wholesale; `if (updatedRoom.status === "completed")` a toast fires and the
viewer is navigated away to the dashboard. -/
def onRoomUpdate (_prev : LocalRoomState) (payload : Room) : RoomUpdateResult :=
  { state := { room := some payload, participants := payload.participants }
    redirected := payload.status == Status.completed
    toastShown := payload.status == Status.completed }

/-- Local state of the feedback-notification binder on a client. -/
structure NotifyState where
  feed : List FeedbackRow
  notification : Option String
deriving DecidableEq, Repr

/-- Modelled from the spec: the richer Live View Binder variant that
subscribes to feedback INSERT events is missing from the sources (the
`MeetingRoom.tsx` realtime effect at lines 146–180 only subscribes to room
UPDATE events, and `feedbackFeed` is never written).  Per the spec, on each
feedback insert event the binder prepends the new feedback to a local
ordered list and, if the event's rated-identifier equals the local user's
identifier, raises a notification bearing the feedback's comment text. -/
def onFeedbackInsert (localUserId : String) (st : NotifyState)
    (ev : FeedbackRow) : NotifyState :=
  { feed := ev :: st.feed
    notification :=
      if ev.student_id == localUserId then some ev.comment
      else st.notification }

/-! ### Concrete fixtures used by witnesses and counterexamples -/

/-- A concrete student profile. -/
def profA : Profile := { id := "A", name := "Alice", role := "student" , points := 50 }

/-- A second concrete student profile. -/
def profB : Profile := { id := "B", name := "Bob", role := "student", points := 50 }

/-- The participant entry of `profA`. -/
def alice : Participant := profileToParticipant profA

/-- The participant entry of `profB`. -/
def bob : Participant := profileToParticipant profB

/-! ### Helper lemmas -/

theorem find_isSome_eq_any {α : Type} (p : α → Bool) (l : List α) :
    (l.find? p).isSome = l.any p := by
  induction l with
  | nil => rfl
  | cons a l ih =>
    by_cases h : p a
    · simp [List.find?, h]
    · simp [List.find?, h, ih]

theorem any_id_eq_false_not_mem (l : List Participant) (s : String)
    (h : l.any (fun p => p.id == s) = false) : s ∉ ids l := by
  simp only [List.any_eq_false, beq_iff_eq] at h
  simp only [ids, List.mem_map]
  rintro ⟨p, hp, hps⟩
  exact h p hp hps

theorem admitStep_nodup (l : List Participant) (c : Participant)
    (h : (ids l).Nodup) : (ids (admitStep l c)).Nodup := by
  unfold admitStep
  by_cases hc : l.any (fun p => p.id == c.id)
  · simpa [hc] using h
  · have hc' : l.any (fun p => p.id == c.id) = false := by
      simpa using hc
    have hmem : c.id ∉ ids l := any_id_eq_false_not_mem l c.id hc'
    simp only [hc', if_neg, ids, List.map_append, List.map_cons, List.map_nil,
      Bool.false_eq_true, if_false]
    simp [List.nodup_append, h, hmem, ids] at hmem ⊢
    exact ⟨h, hmem⟩

theorem foldl_admitStep_nodup (cs : List Participant) :
    ∀ l : List Participant, (ids l).Nodup →
      (ids (List.foldl admitStep l cs)).Nodup := by
  induction cs with
  | nil => intro l h; simpa using h
  | cons c cs ih =>
    intro l h
    exact ih (admitStep l c) (admitStep_nodup l c h)

/-! ### Claims -/

/-- C2: the roster admission operation, given a room identifier and a
candidate participant, (a) reads the room's current participant list fresh
from the store, (b) scans it for an entry whose identifier equals the
candidate's, (c) if no such entry exists, writes back the full list with
the candidate appended in a single update, and (d) if such an entry
exists, performs no write at all. -/
theorem roster_admission_algorithm (store : List Participant) (profile : Profile) :
    (handleJoinRoom store profile).readList = store
    ∧ (handleJoinRoom store profile).writes
        = (if store.any (fun p => p.id == profile.id) then []
           else [store ++ [profileToParticipant profile]])
    ∧ (handleJoinRoom store profile).finalStore
        = admitStep store (profileToParticipant profile) := by
  unfold handleJoinRoom admitStep
  simp only [find_isSome_eq_any]
  by_cases h : store.any (fun p => p.id == profile.id)
  · simp [h, profileToParticipant]
  · have h' : store.any (fun p => p.id == profile.id) = false := by simpa using h
    simp [h', profileToParticipant]

/-- C3: for every sequence of roster admission operations executed one at
a time (each read seeing the previous write), starting from a participant
list with no duplicate identifiers, the room's participant list contains
no duplicate identifiers after every step. -/
theorem sequential_joins_nodup (start cands : List Participant) (n : Nat)
    (h : (ids start).Nodup) :
    (ids (joinSeq start (cands.take n))).Nodup :=
  foldl_admitStep_nodup (cands.take n) start h

/-- Witness for C3 at a concrete run: three admissions (the third a repeat
of the first) starting from the empty roster keep identifiers duplicate
free. -/
theorem sequential_joins_nodup_witness :
    (ids (joinSeq [] ([alice, bob, alice].take 3))).Nodup :=
  sequential_joins_nodup [] [alice, bob, alice] 3 (by constructor)

/-- C10: every roster admission write preserves all existing participant
entries and their order — the value written back is exactly the current
list with the candidate appended as the last element — and no other room
field is changed by the write. -/
theorem join_write_frame (r : Room) (profile : Profile)
    (h : r.participants.any (fun p => p.id == profile.id) = false) :
    (joinRoomUpdate r profile).participants
        = r.participants ++ [profileToParticipant profile]
    ∧ (joinRoomUpdate r profile).id = r.id
    ∧ (joinRoomUpdate r profile).topic = r.topic
    ∧ (joinRoomUpdate r profile).domain = r.domain
    ∧ (joinRoomUpdate r profile).status = r.status
    ∧ (joinRoomUpdate r profile).meeting_link = r.meeting_link
    ∧ (joinRoomUpdate r profile).host_id = r.host_id
    ∧ (joinRoomUpdate r profile).created_at = r.created_at := by
  unfold joinRoomUpdate
  simp [h]

/-- Witness for C10: admitting Bob into a concrete one-entry room appends
his entry and leaves every other field of the room unchanged. -/
theorem join_write_frame_witness :
    (joinRoomUpdate
        { id := "r1", topic := "t", domain := "tech", status := Status.live,
          meeting_link := some "m", participants := [alice], host_id := "A",
          created_at := "now" } profB).participants = [alice] ++ [profileToParticipant profB]
    ∧ (joinRoomUpdate
        { id := "r1", topic := "t", domain := "tech", status := Status.live,
          meeting_link := some "m", participants := [alice], host_id := "A",
          created_at := "now" } profB).status = Status.live :=
  let r : Room :=
    { id := "r1", topic := "t", domain := "tech", status := Status.live,
      meeting_link := some "m", participants := [alice], host_id := "A",
      created_at := "now" }
  ⟨(join_write_frame r profB (by decide)).1,
   (join_write_frame r profB (by decide)).2.2.2.2.1⟩

/-- C1 counterexample: two concurrent joins by the distinct identifiers
`A` (Alice) and `B` (Bob) against the same initial list `[]`, with Bob's
write landing last, leave the roster as `[bob]` — Alice's entry is lost,
so the final list misses `A` and is not the union of `[]` with the two
entries the claim requires. -/
theorem concurrent_join_counterexample :
    concurrentJoinFinal [] alice bob = [bob]
    ∧ (concurrentJoinFinal [] alice bob).any (fun p => p.id == alice.id) = false := by
  constructor <;> rfl

/-- C1 amended: for two concurrent joins by distinct identifiers `a` and
`b` not yet on the roster, both reading the same initial list `l` with
`b`'s write landing last, the final list is exactly `l ++ [b]` — `a`'s
entry is absent — whereas the two admissions run sequentially (the second
read seeing the first write) do end with both entries appended. -/
theorem concurrent_join_lost_update (l : List Participant) (a b : Participant)
    (ha : l.any (fun p => p.id == a.id) = false)
    (hb : l.any (fun p => p.id == b.id) = false)
    (hab : a.id ≠ b.id) :
    concurrentJoinFinal l a b = l ++ [b]
    ∧ (concurrentJoinFinal l a b).any (fun p => p.id == a.id) = false
    ∧ admitStep (admitStep l a) b = (l ++ [a]) ++ [b] := by
  have hfinal : concurrentJoinFinal l a b = l ++ [b] := by
    unfold concurrentJoinFinal
    simp [hb]
  refine ⟨hfinal, ?_, ?_⟩
  · rw [hfinal]
    simp only [List.any_append, ha, List.any_cons, List.any_nil]
    simp [beq_iff_eq]
    intro hba
    exact hab hba.symm
  · unfold admitStep
    simp [ha, hb, List.any_append, beq_iff_eq]
    intro hba
    exact hab hba

/-- Witness for the amended C1 at a concrete input: from the empty roster,
the concurrent pair ends with only Bob while the sequential pair ends with
both Alice and Bob. -/
theorem concurrent_join_lost_update_witness :
    concurrentJoinFinal [] alice bob = [] ++ [bob]
    ∧ (concurrentJoinFinal [] alice bob).any (fun p => p.id == alice.id) = false
    ∧ admitStep (admitStep [] alice) bob = ([] ++ [alice]) ++ [bob] :=
  concurrent_join_lost_update [] alice bob (by decide) (by decide) (by decide)

/-- C6: for every room update event received by the realtime handler, the
local room state and local participant list are replaced wholesale with
the event payload — the result does not depend on the previous local state
— and the viewer is redirected away exactly when the event's status is the
terminal `completed` status. -/
theorem realtime_update_replaces_state (prev prev' : LocalRoomState)
    (payload : Room) :
    (onRoomUpdate prev payload).state.room = some payload
    ∧ (onRoomUpdate prev payload).state.participants = payload.participants
    ∧ onRoomUpdate prev payload = onRoomUpdate prev' payload
    ∧ ((onRoomUpdate prev payload).redirected = true
        ↔ payload.status = Status.completed) := by
  refine ⟨rfl, rfl, rfl, ?_⟩
  simp [onRoomUpdate, beq_iff_eq]

theorem statusTrace_shape (ops : List RoomOp) (u : Status) :
    ∃ x, statusTrace u ops = u :: x := by
  cases ops with
  | nil => exact ⟨[], rfl⟩
  | cons op ops => exact ⟨statusTrace (applyOp u op) ops, rfl⟩

theorem applyOp_ne_waiting (s : Status) (op : RoomOp) :
    applyOp s op ≠ Status.waiting := by
  cases s <;> cases op <;> simp [applyOp, viewLoad, endSession]

theorem waitingToLiveCount_of_ne_waiting (ops : List RoomOp) :
    ∀ t : Status, t ≠ Status.waiting →
      waitingToLiveCount (statusTrace t ops) = 0 := by
  induction ops with
  | nil =>
    intro t _
    rfl
  | cons op ops ih =>
    intro t ht
    obtain ⟨x, hx⟩ := statusTrace_shape ops (applyOp t op)
    have hstep : statusTrace t (op :: ops)
        = t :: applyOp t op :: x := by
      rw [statusTrace, hx]
    rw [hstep]
    have h0 : waitingToLiveCount (applyOp t op :: x) = 0 := by
      rw [← hx]
      exact ih (applyOp t op) (applyOp_ne_waiting t op)
    simp [waitingToLiveCount, ht, h0]

theorem waitingToLiveCount_first_load (ops : List RoomOp) :
    waitingToLiveCount (statusTrace Status.waiting (RoomOp.load :: ops)) = 1 := by
  obtain ⟨x, hx⟩ := statusTrace_shape ops Status.live
  have hstep : statusTrace Status.waiting (RoomOp.load :: ops)
      = Status.waiting :: Status.live :: x := by
    rw [statusTrace]
    show Status.waiting :: statusTrace Status.live ops = _
    rw [hx]
  rw [hstep]
  have h0 : waitingToLiveCount (Status.live :: x) = 0 := by
    rw [← hx]
    exact waitingToLiveCount_of_ne_waiting ops Status.live (by simp)
  simp [waitingToLiveCount, h0]

theorem waitingToLiveCount_le_one (s : Status) (ops : List RoomOp) :
    waitingToLiveCount (statusTrace s ops) ≤ 1 := by
  by_cases hs : s = Status.waiting
  · subst hs
    cases ops with
    | nil => simp [statusTrace, waitingToLiveCount]
    | cons op ops =>
      obtain ⟨x, hx⟩ := statusTrace_shape ops (applyOp Status.waiting op)
      have hstep : statusTrace Status.waiting (op :: ops)
          = Status.waiting :: applyOp Status.waiting op :: x := by
        rw [statusTrace, hx]
      rw [hstep]
      have h0 : waitingToLiveCount (applyOp Status.waiting op :: x) = 0 := by
        rw [← hx]
        exact waitingToLiveCount_of_ne_waiting ops _
          (applyOp_ne_waiting Status.waiting op)
      simp only [waitingToLiveCount, h0, Nat.add_zero]
      split <;> simp
  · rw [waitingToLiveCount_of_ne_waiting ops s hs]
    exact Nat.zero_le 1

/-- C5: room status only moves forward along
`waiting → live → completed`: a view load changes the status exactly when
it is `waiting` (so over any run the `waiting → live` transition occurs at
most once, and exactly once when the first operation is a load of a
waiting room); no operation ever yields `waiting` again; and from the
terminal `completed` status no operation changes the status. -/
theorem room_status_lifecycle :
    (∀ (s : Status) (op : RoomOp), statusRank s ≤ statusRank (applyOp s op))
    ∧ (∀ (s : Status) (op : RoomOp), applyOp s op ≠ Status.waiting)
    ∧ (∀ op : RoomOp, applyOp Status.completed op = Status.completed)
    ∧ (∀ s : Status, viewLoad s ≠ s ↔ s = Status.waiting)
    ∧ viewLoad Status.waiting = Status.live
    ∧ (∀ ops : List RoomOp,
        waitingToLiveCount (statusTrace Status.waiting (RoomOp.load :: ops)) = 1)
    ∧ (∀ (s : Status) (ops : List RoomOp),
        waitingToLiveCount (statusTrace s ops) ≤ 1) :=
  ⟨fun s op => by cases s <;> cases op <;> decide,
   fun s op => by cases s <;> cases op <;> decide,
   fun op => by cases op <;> decide,
   fun s => by cases s <;> decide, rfl,
   waitingToLiveCount_first_load, waitingToLiveCount_le_one⟩

theorem getPoints_setPoints (profiles : List (String × Int)) (pid : String)
    (v w : Int) (h : getPoints profiles pid = some w) :
    getPoints (setPoints profiles pid v) pid = some v := by
  induction profiles with
  | nil => simp [getPoints] at h
  | cons q rest ih =>
    by_cases hq : (q.1 == pid) = true
    · simp [getPoints, setPoints, List.find?, hq]
    · have hq' : (q.1 == pid) = false := by simpa using hq
      have h' : getPoints rest pid = some w := by
        simpa [getPoints, List.find?, hq'] using h
      simpa [getPoints, setPoints, List.find?, hq'] using ih h'

/-- C4: the feedback submission operation inserts a feedback row and then
writes the rated profile's point balance to the balance read after the
insert plus `rating * 10`, reporting success; the witness instantiates
`rating = 5`, where the balance rises by exactly 50. -/
theorem rating_updates_points (fb : List FeedbackRow)
    (profiles : List (String × Int)) (roomId studentId expertId : String)
    (rating : Int) (comment : String) (pts : Int)
    (h : getPoints profiles studentId = some pts) :
    (handleSubmitRating fb profiles roomId studentId expertId rating comment
        StoreOutcome.ok StoreOutcome.ok StoreOutcome.ok).feedback
      = fb ++ [⟨roomId, studentId, expertId, rating, comment⟩]
    ∧ getPoints (handleSubmitRating fb profiles roomId studentId expertId rating
        comment StoreOutcome.ok StoreOutcome.ok StoreOutcome.ok).profiles studentId
      = some (pts + rating * 10)
    ∧ (handleSubmitRating fb profiles roomId studentId expertId rating comment
        StoreOutcome.ok StoreOutcome.ok StoreOutcome.ok).toastSuccess = true := by
  unfold handleSubmitRating
  simp only [h, reduceCtorEq, if_pos, if_neg, reduceIte]
  refine ⟨trivial, ?_, trivial⟩
  exact getPoints_setPoints profiles studentId (pts + rating * 10) pts h

/-- Witness for C4: rating the profile `X` (balance 7) with 5 stars leaves
its balance at 57, an increase of exactly 50. -/
theorem rating_updates_points_witness :
    getPoints (handleSubmitRating [] [("X", 7)] "r1" "X" "E" 5 "well done"
        StoreOutcome.ok StoreOutcome.ok StoreOutcome.ok).profiles "X"
      = some 57 := by
  have h := (rating_updates_points [] [("X", 7)] "r1" "X" "E" 5 "well done" 7
    (by decide)).2.1
  norm_num at h
  exact h

/-- C8: when the point-balance update that follows a successful feedback
insert fails — whether the update call throws or resolves with an ignored
error — the inserted feedback row persists with no rollback, the point
balance is left without the increase, and the user sees a toast. -/
theorem rating_update_failure_keeps_feedback (fb : List FeedbackRow)
    (profiles : List (String × Int)) (roomId studentId expertId : String)
    (rating : Int) (comment : String) (pts : Int) (uo : StoreOutcome)
    (hread : getPoints profiles studentId = some pts)
    (huo : uo ≠ StoreOutcome.ok) :
    (handleSubmitRating fb profiles roomId studentId expertId rating comment
        StoreOutcome.ok StoreOutcome.ok uo).feedback
      = fb ++ [⟨roomId, studentId, expertId, rating, comment⟩]
    ∧ (handleSubmitRating fb profiles roomId studentId expertId rating comment
        StoreOutcome.ok StoreOutcome.ok uo).profiles = profiles
    ∧ ((handleSubmitRating fb profiles roomId studentId expertId rating comment
        StoreOutcome.ok StoreOutcome.ok uo).toastSuccess = true
       ∨ (handleSubmitRating fb profiles roomId studentId expertId rating comment
        StoreOutcome.ok StoreOutcome.ok uo).toastError = true) := by
  cases uo with
  | ok => exact absurd rfl huo
  | errorResult =>
    unfold handleSubmitRating
    simp [hread]
  | thrown =>
    unfold handleSubmitRating
    simp [hread]

/-- Witness for C8: a 3-star rating whose point update throws leaves the
feedback row in the store, the balance untouched, and a toast shown. -/
theorem rating_update_failure_witness :
    (handleSubmitRating [] [("X", 7)] "r1" "X" "E" 3 "ok"
        StoreOutcome.ok StoreOutcome.ok StoreOutcome.thrown).feedback
      = [] ++ [⟨"r1", "X", "E", 3, "ok"⟩]
    ∧ (handleSubmitRating [] [("X", 7)] "r1" "X" "E" 3 "ok"
        StoreOutcome.ok StoreOutcome.ok StoreOutcome.thrown).profiles = [("X", 7)]
    ∧ ((handleSubmitRating [] [("X", 7)] "r1" "X" "E" 3 "ok"
        StoreOutcome.ok StoreOutcome.ok StoreOutcome.thrown).toastSuccess = true
       ∨ (handleSubmitRating [] [("X", 7)] "r1" "X" "E" 3 "ok"
        StoreOutcome.ok StoreOutcome.ok StoreOutcome.thrown).toastError = true) :=
  rating_update_failure_keeps_feedback [] [("X", 7)] "r1" "X" "E" 3 "ok" 7
    StoreOutcome.thrown (by decide) (by decide)

/-- C7: when an expert rates participant `X` with rating 4 and comment
"Good structure", a feedback row is created, `X`'s points increase by 40,
and — per the spec-modelled feedback insert-event binder — a notification
bearing "Good structure" is raised on `X`'s client, with the new feedback
prepended to the local feed. -/
theorem expert_rating_notification (fb : List FeedbackRow)
    (profiles : List (String × Int)) (roomId xid eid : String) (px : Int)
    (st : NotifyState) (hx : getPoints profiles xid = some px) :
    (handleSubmitRating fb profiles roomId xid eid 4 "Good structure"
        StoreOutcome.ok StoreOutcome.ok StoreOutcome.ok).feedback
      = fb ++ [⟨roomId, xid, eid, 4, "Good structure"⟩]
    ∧ getPoints (handleSubmitRating fb profiles roomId xid eid 4 "Good structure"
        StoreOutcome.ok StoreOutcome.ok StoreOutcome.ok).profiles xid
      = some (px + 40)
    ∧ (onFeedbackInsert xid st ⟨roomId, xid, eid, 4, "Good structure"⟩).notification
      = some "Good structure"
    ∧ (onFeedbackInsert xid st ⟨roomId, xid, eid, 4, "Good structure"⟩).feed
      = ⟨roomId, xid, eid, 4, "Good structure"⟩ :: st.feed := by
  refine ⟨?_, ?_, ?_, rfl⟩
  · unfold handleSubmitRating
    simp [hx]
  · unfold handleSubmitRating
    simp only [hx, reduceCtorEq, if_pos, if_neg, reduceIte]
    have h := getPoints_setPoints profiles xid (px + 4 * 10) px hx
    norm_num at h
    exact h
  · simp [onFeedbackInsert]

/-- Witness for C7: with `X` at 10 points, the 4-star "Good structure"
rating leaves a feedback row, 50 points, and a "Good structure"
notification on `X`'s client. -/
theorem expert_rating_notification_witness :
    (handleSubmitRating [] [("X", 10)] "r1" "X" "E" 4 "Good structure"
        StoreOutcome.ok StoreOutcome.ok StoreOutcome.ok).feedback
      = [] ++ [⟨"r1", "X", "E", 4, "Good structure"⟩]
    ∧ getPoints (handleSubmitRating [] [("X", 10)] "r1" "X" "E" 4 "Good structure"
        StoreOutcome.ok StoreOutcome.ok StoreOutcome.ok).profiles "X"
      = some (10 + 40)
    ∧ (onFeedbackInsert "X" ⟨[], none⟩ ⟨"r1", "X", "E", 4, "Good structure"⟩).notification
      = some "Good structure"
    ∧ (onFeedbackInsert "X" ⟨[], none⟩ ⟨"r1", "X", "E", 4, "Good structure"⟩).feed
      = ⟨"r1", "X", "E", 4, "Good structure"⟩ :: ([] : List FeedbackRow) :=
  expert_rating_notification [] [("X", 10)] "r1" "X" "E" 10 ⟨[], none⟩ (by decide)

theorem checkin_writes_le_one (ml : Option String) (lp : List Participant)
    (ap : Option Profile) (st : List Participant)
    (ro wo : StoreOutcome) :
    (handleOpenMeetingLink ml lp ap st ro wo).writes ≤ 1 := by
  unfold handleOpenMeetingLink
  rcases ml with _ | l
  · simp
  rcases ap with _ | prof
  · simp
  by_cases h1 : lp.any (fun p => p.id == prof.id)
  · simp [h1]
  have h1' : lp.any (fun p => p.id == prof.id) = false := by simpa using h1
  simp only [h1', Bool.false_eq_true, if_false]
  cases ro
  · by_cases h2 : st.any (fun p => p.id == prof.id)
    · simp [h2]
    · have h2' : st.any (fun p => p.id == prof.id) = false := by simpa using h2
      cases wo <;> simp [h2']
  · cases wo <;> simp
  · simp

/-- C9: when the store fails during roster admission, the admission is
abandoned with no retry (never more than one update attempt) and, when the
failing call throws, the failure toast is raised and the meeting link is
not opened; yet when the update call merely resolves with an error — which
the code ignores — the meeting link is opened and the success toast shown
even though the store was never updated, so the external action proceeds
regardless of admission success. -/
theorem checkin_failure_behavior (link : String) (lp : List Participant)
    (prof : Profile) (st : List Participant)
    (hlp : lp.any (fun p => p.id == prof.id) = false)
    (hst : st.any (fun p => p.id == prof.id) = false) :
    (∀ wo, handleOpenMeetingLink (some link) lp (some prof) st
        StoreOutcome.thrown wo = ⟨st, 0, false, false, true⟩)
    ∧ handleOpenMeetingLink (some link) lp (some prof) st
        StoreOutcome.ok StoreOutcome.thrown = ⟨st, 1, false, false, true⟩
    ∧ handleOpenMeetingLink (some link) lp (some prof) st
        StoreOutcome.ok StoreOutcome.errorResult = ⟨st, 1, true, true, false⟩
    ∧ (∀ (ml : Option String) (lp2 : List Participant) (ap : Option Profile)
        (st2 : List Participant) (ro wo : StoreOutcome),
        (handleOpenMeetingLink ml lp2 ap st2 ro wo).writes ≤ 1) := by
  refine ⟨?_, ?_, ?_, checkin_writes_le_one⟩
  · intro wo
    unfold handleOpenMeetingLink
    simp [hlp]
  · unfold handleOpenMeetingLink
    simp [hlp, hst]
  · unfold handleOpenMeetingLink
    simp [hlp, hst]

/-- Witness for C9 at a concrete input: with an empty local list and an
empty store, an update that resolves with an ignored error still opens the
link and shows the success toast while the store stays empty. -/
theorem checkin_failure_witness :
    handleOpenMeetingLink (some "https://meet.example") [] (some profA) []
        StoreOutcome.ok StoreOutcome.errorResult
      = ⟨[], 1, true, true, false⟩ :=
  (checkin_failure_behavior "https://meet.example" [] profA []
    (by decide) (by decide)).2.2.1

end PrepLyt
